import Mathlib

/-!
A shallow embedding in Lean 4 of the CO-PRESENCE orchestration core
(repository `pietrolama/co-presence`), together with theorems settling the
frozen claims C1..C10 about it.

Conventions of the embedding:
 * Python `int` is `Int`, non-negative sizes are `Nat`.
 * Python `float` literals appearing in the source (`0.5`, `0.3`, `1.5`, ...)
   are exact decimals; they are embedded as the corresponding rationals
   (written with the `Rat.mk'` constructor so that concrete facts reduce by
   `decide`).  No claim involves float rounding.
 * `datetime` timestamps are embedded as `Nat`; only their total order and
   equality are used by the code under study.
 * Python dicts that the code iterates over are embedded as association
   lists in insertion order; `random.*` draws are threaded as explicit
   function parameters (nondeterminism as a parameter).
 * Fallible code returns `Option`/an explicit error component.
-/

namespace CoPresence

/-- `charsPrefixOf needle hay`: is `needle` a prefix of `hay`?
Helper for Python's substring test `needle in hay`. -/
def charsPrefixOf : List Char → List Char → Bool
  | [], _ => true
  | _ :: _, [] => false
  | a :: t1, b :: t2 => decide (a = b) && charsPrefixOf t1 t2

/-- `charsContains hay needle`: Python's substring test `needle in hay`
over explicit character lists. -/
def charsContains : List Char → List Char → Bool
  | [], needle => needle.isEmpty
  | h :: t, needle => charsPrefixOf needle (h :: t) || charsContains t needle

/-- Python `str.lower()` (character-wise; the code only lowercases for
case-insensitive matching). -/
def strLower (s : String) : String := ⟨s.data.map Char.toLower⟩

/-- Python `needle in hay` on strings. -/
def pyStrContains (hay needle : String) : Bool := charsContains hay.data needle.data

/-- Python truthiness of `s.strip()`: `true` iff `s` has a non-whitespace
character. -/
def hasNonWs (s : String) : Bool := s.data.any (fun c => !c.isWhitespace)

/-- One insertion step of a stable insertion sort: place `a` before the
first element `b` with `le a b`. -/
def insertLe {α : Type} (le : α → α → Bool) (a : α) : List α → List α
  | [] => [a]
  | b :: t => if le a b then a :: b :: t else b :: insertLe le a t

/-- Stable sort by the boolean comparison `le`.  Python's `list.sort` is a
stable sort; for a total preorder a stable sort's output is uniquely
determined by being (a) a permutation of the input, (b) sorted, and
(c) stable (equal-key elements keep their relative order).  `sortLe` has all
three properties (proved below), so it is extensionally the same function as
`list.sort` with the corresponding key, while remaining kernel-reducible. -/
def sortLe {α : Type} (le : α → α → Bool) : List α → List α
  | [] => []
  | a :: t => insertLe le a (sortLe le t)

theorem insertLe_perm {α : Type} (le : α → α → Bool) (a : α) :
    ∀ l : List α, (insertLe le a l).Perm (a :: l) := by
  intro l
  induction l with
  | nil => exact List.Perm.refl _
  | cons b t ih =>
    unfold insertLe
    by_cases h : le a b
    · simp [h]
    · simp only [h, if_neg, Bool.false_eq_true, not_false_eq_true, ite_false]
      exact (ih.cons b).trans (List.Perm.swap a b t)

theorem sortLe_perm {α : Type} (le : α → α → Bool) :
    ∀ l : List α, (sortLe le l).Perm l := by
  intro l
  induction l with
  | nil => exact List.Perm.refl _
  | cons a t ih => exact (insertLe_perm le a (sortLe le t)).trans (ih.cons a)

theorem mem_insertLe {α : Type} (le : α → α → Bool) (a x : α) (l : List α) :
    x ∈ insertLe le a l ↔ x = a ∨ x ∈ l := by
  have h := (insertLe_perm le a l).mem_iff (a := x)
  simpa using h

theorem pairwise_insertLe {α : Type} (le : α → α → Bool)
    (htot : ∀ x y, le x y = true ∨ le y x = true)
    (htrans : ∀ x y z, le x y = true → le y z = true → le x z = true)
    (a : α) : ∀ l : List α, l.Pairwise (fun x y => le x y = true) →
      (insertLe le a l).Pairwise (fun x y => le x y = true) := by
  intro l
  induction l with
  | nil => intro _; simp [insertLe]
  | cons b t ih =>
    intro hp
    rw [List.pairwise_cons] at hp
    obtain ⟨hb, ht⟩ := hp
    unfold insertLe
    by_cases h : le a b
    · simp only [h, ite_true]
      rw [List.pairwise_cons]
      constructor
      · intro x hx
        rcases List.mem_cons.mp hx with rfl | hx
        · exact h
        · exact htrans a b x h (hb x hx)
      · rw [List.pairwise_cons]; exact ⟨hb, ht⟩
    · simp only [h, Bool.false_eq_true, not_false_eq_true, ite_false]
      rw [List.pairwise_cons]
      constructor
      · intro x hx
        rcases (mem_insertLe le a x t).mp hx with rfl | hx
        · rcases htot x b with hxb | hbx
          · exact absurd hxb h
          · exact hbx
        · exact hb x hx
      · exact ih ht

theorem sortLe_pairwise {α : Type} (le : α → α → Bool)
    (htot : ∀ x y, le x y = true ∨ le y x = true)
    (htrans : ∀ x y z, le x y = true → le y z = true → le x z = true) :
    ∀ l : List α, (sortLe le l).Pairwise (fun x y => le x y = true) := by
  intro l
  induction l with
  | nil => simp [sortLe]
  | cons a t ih => exact pairwise_insertLe le htot htrans a (sortLe le t) ih

theorem filter_insertLe {α κ : Type} [DecidableEq κ] (le : α → α → Bool)
    (k : α → κ) (hk : ∀ x y, k x = k y → le x y = true) (c : κ) (a : α) :
    ∀ l : List α, (insertLe le a l).filter (fun x => k x = c) =
      if k a = c then a :: l.filter (fun x => k x = c)
      else l.filter (fun x => k x = c) := by
  intro l
  induction l with
  | nil => by_cases h : k a = c <;> simp [insertLe, h]
  | cons b t ih =>
    unfold insertLe
    by_cases hab : le a b
    · simp only [hab, ite_true]
      by_cases ha : k a = c <;> simp [ha, List.filter_cons]
    · simp only [hab, Bool.false_eq_true, not_false_eq_true, ite_false]
      by_cases ha : k a = c
      · have hbne : ¬ k b = c := by
          intro hb
          exact hab (hk a b (ha.trans hb.symm))
        simp [List.filter_cons, hbne, ih, ha]
      · by_cases hb : k b = c <;> simp [List.filter_cons, hb, ih, ha]

theorem filter_sortLe {α κ : Type} [DecidableEq κ] (le : α → α → Bool)
    (k : α → κ) (hk : ∀ x y, k x = k y → le x y = true) (c : κ) :
    ∀ l : List α, (sortLe le l).filter (fun x => k x = c) =
      l.filter (fun x => k x = c) := by
  intro l
  induction l with
  | nil => simp [sortLe]
  | cons a t ih =>
    unfold sortLe
    rw [filter_insertLe le k hk c, ih]
    by_cases ha : k a = c <;> simp [List.filter_cons, ha]

/-! ## Data model (`src/environment/artifact.py`, `src/agents/cognitive_profile.py`) -/

/-- `ArtifactType` enum: the closed set of artifact categories. -/
inductive ArtifactType where
  | hypothesisChain
  | classification
  | partialTheory
  | comparison
  | openQuestion
  | silence
deriving DecidableEq

/-- The `.value` string of each `ArtifactType` member, as in the Python enum. -/
def ArtifactType.value : ArtifactType → String
  | .hypothesisChain => "hypothesis_chain"
  | .classification => "classification"
  | .partialTheory => "partial_theory"
  | .comparison => "comparison"
  | .openQuestion => "open_question"
  | .silence => "silence"

/-- `ArtifactType(s)`: enum lookup by value; `none` models the `ValueError`. -/
def ArtifactType.fromValue (s : String) : Option ArtifactType :=
  if s = "hypothesis_chain" then some .hypothesisChain
  else if s = "classification" then some .classification
  else if s = "partial_theory" then some .partialTheory
  else if s = "comparison" then some .comparison
  else if s = "open_question" then some .openQuestion
  else if s = "silence" then some .silence
  else none

/-- A dynamically-typed profile-parameter value: the JSON values the code
actually passes around are numbers (for the four bounded parameters) and
strings (for the two categorical parameters). -/
inductive PVal where
  | num (q : ℚ)
  | str (s : String)
deriving DecidableEq

/-- One step of a reasoning chain (`Step`). -/
structure Step where
  label : String
  content : String
deriving DecidableEq

/-- Meta-cognitive reflection block (`MetaCognition`); all fields mandatory. -/
structure MetaCognition where
  self_observation : String
  influence_of_other_agent : String
  uncertainties : String
deriving DecidableEq

/-- Main content structure of an artifact (`ArtifactContent`). -/
structure ArtifactContent where
  description : String
  steps : List Step
  meta_cognition : MetaCognition
deriving DecidableEq

/-- Proposed profile change (`ProfileUpdate`); the `proposed_changes` dict is
an association list in insertion order. -/
structure ProfileUpdate where
  proposed_changes : List (String × PVal)
  comment : String
deriving DecidableEq

/-- A structured thought trace (`Artifact`).  `id` is the storage identity
string computed at creation (`model_post_init`). -/
structure Artifact where
  agent_name : String
  cycle_id : Int
  timestamp : Nat
  artifact_type : ArtifactType
  artifact : ArtifactContent
  profile_update : Option ProfileUpdate
  profile_snapshot : Option (List (String × PVal))
  silence_flag : Bool
  id : String
deriving DecidableEq

/-- `model_post_init` identity derivation:
`f"{agent_name.replace(' ', '_').lower()}_{cycle_id}_{timestamp:...}"`.
The `strftime` rendering of the timestamp is abstracted to `toString`. -/
def mkArtifactId (agent_name : String) (cycle_id : Int) (timestamp : Nat) : String :=
  strLower ⟨agent_name.data.map (fun c => if c = ' ' then '_' else c)⟩
    ++ "_" ++ toString cycle_id ++ "_" ++ toString timestamp

/-- Cognitive preference parameters (`CognitivePreferences`).  Pydantic
declares the four numeric fields with `ge=0.0, le=1.0` and the two
categorical fields as enums, but (without `validate_assignment`) these
domains are only checked at construction, not on assignment; therefore the
fields are embedded with the dynamic value type `PVal`, which can hold
whatever an assignment stores.  Categorical values are stored as their enum
value strings. -/
structure CognitivePreferences where
  abstraction_level : PVal := .str "medium"
  tendency_to_close : PVal := .num (Rat.mk' 1 2)
  self_focus : PVal := .num (Rat.mk' 1 2)
  other_focus : PVal := .num (Rat.mk' 1 2)
  world_focus : PVal := .num (Rat.mk' 3 10)
  complexity_target : PVal := .str "variable"
deriving DecidableEq

/-- `model_dump()` of the preferences, in pydantic field-declaration order. -/
def CognitivePreferences.dump (p : CognitivePreferences) : List (String × PVal) :=
  [("abstraction_level", p.abstraction_level),
   ("tendency_to_close", p.tendency_to_close),
   ("self_focus", p.self_focus),
   ("other_focus", p.other_focus),
   ("world_focus", p.world_focus),
   ("complexity_target", p.complexity_target)]

/-- One history entry recorded by `CognitiveProfile.update`. -/
structure ChangeRecord where
  cycle_id : Int
  before : List (String × PVal)
  changes : List (String × PVal)
  comment : String
  after : List (String × PVal)
deriving DecidableEq

/-- Persistent cognitive profile (`CognitiveProfile`). -/
structure CognitiveProfile where
  agent_name : String
  preferences : CognitivePreferences := {}
  history : List ChangeRecord := []
deriving DecidableEq

/-- One loop iteration of `CognitiveProfile.update`: apply a single proposed
`key := value`.  Unknown keys are skipped (`if key in current`).  For the two
enum keys the code converts via the enum constructor, which raises
`ValueError` on an out-of-domain value (`.error`).  For the four numeric keys
the code calls `setattr` directly, which stores the value *without any domain
validation* (pydantic does not validate assignments here). -/
def applyProposedKey (p : CognitivePreferences) (key : String) (v : PVal) :
    Except String CognitivePreferences :=
  if key = "abstraction_level" then
    match v with
    | .str s =>
      if s = "low" ∨ s = "medium" ∨ s = "high" then
        .ok { p with abstraction_level := .str s }
      else .error "ValueError: invalid AbstractionLevel"
    | .num _ => .error "ValueError: invalid AbstractionLevel"
  else if key = "complexity_target" then
    match v with
    | .str s =>
      if s = "simple" ∨ s = "complex" ∨ s = "variable" then
        .ok { p with complexity_target := .str s }
      else .error "ValueError: invalid ComplexityTarget"
    | .num _ => .error "ValueError: invalid ComplexityTarget"
  else if key = "tendency_to_close" then .ok { p with tendency_to_close := v }
  else if key = "self_focus" then .ok { p with self_focus := v }
  else if key = "other_focus" then .ok { p with other_focus := v }
  else if key = "world_focus" then .ok { p with world_focus := v }
  else .ok p

/-- The `for key, value in proposed_changes.items()` loop.  On a raised
`ValueError` the mutations already made persist on the object and the
exception propagates: the result carries the partially-updated preferences
and the error. -/
def applyProposedChanges (p : CognitivePreferences) :
    List (String × PVal) → CognitivePreferences × Option String
  | [] => (p, none)
  | (k, v) :: t =>
    match applyProposedKey p k v with
    | .ok p' => applyProposedChanges p' t
    | .error e => (p, some e)

/-- Result of `CognitiveProfile.update`: the profile object afterwards, plus
the message of the exception if one was raised (in Python the exception
propagates to the caller; the object keeps the mutations made before it). -/
structure UpdateResult where
  profile : CognitiveProfile
  raised : Option String
deriving DecidableEq

/-- `CognitiveProfile.update(proposed_changes, cycle_id, comment)`:
no-op when `proposed_changes` is empty; otherwise apply each known key
(without domain validation for the numeric keys, see `applyProposedKey`) and
append one history entry with before/after snapshots.  No history entry is
recorded if an enum conversion raised. -/
def CognitiveProfile.update (c : CognitiveProfile)
    (proposed_changes : List (String × PVal)) (cycle_id : Int)
    (comment : String := "") : UpdateResult :=
  if proposed_changes = [] then ⟨c, none⟩
  else
    let before := c.preferences.dump
    match applyProposedChanges c.preferences proposed_changes with
    | (p', none) =>
      let entry : ChangeRecord := ⟨cycle_id, before, proposed_changes, comment, p'.dump⟩
      ⟨{ c with
          preferences := p'
          history := c.history ++ [entry] }, none⟩
    | (p', some e) => ⟨{ c with preferences := p' }, some e⟩

/-! ## Environment: append-only artifact log (`src/environment/environment.py`) -/

/-- One line of the persisted `artifacts.jsonl` file.  A non-blank line holds
exactly one serialized record; the JSON round-trip (pydantic
`model_dump_json` / `Artifact(**json.loads(line))`) is abstracted as the
record itself. -/
inductive FileLine where
  | blank
  | record (a : Artifact)
deriving DecidableEq

/-- `Environment._load_artifacts`: replay the file top to bottom, skipping
blank lines (`if line.strip()`). -/
def loadArtifacts (file : List FileLine) : List Artifact :=
  file.filterMap fun
    | .blank => none
    | .record a => some a

/-- The artifact log: the durable file plus the in-memory cache. -/
structure Environment where
  file : List FileLine
  cache : List Artifact
deriving DecidableEq

/-- `Environment.__init__`: construction replays the persisted file into the
cache. -/
def Environment.load (file : List FileLine) : Environment :=
  ⟨file, loadArtifacts file⟩

/-- `Environment.append`: write the record to the file, then admit it to the
cache. -/
def Environment.append (e : Environment) (a : Artifact) : Environment :=
  ⟨e.file ++ [.record a], e.cache ++ [a]⟩

/-- `Environment.get_latest_cycle_id`: 0 when empty, else the maximum cycle. -/
def Environment.get_latest_cycle_id (e : Environment) : Int :=
  match e.cache.map (fun a => a.cycle_id) with
  | [] => 0
  | c :: cs => cs.foldl max c

/-- `Environment.count`. -/
def Environment.countArtifacts (e : Environment) : Nat := e.cache.length

/-- Sort order of a query (`Literal["asc", "desc"]`). -/
inductive SortOrder where
  | asc
  | desc
deriving DecidableEq

/-- The keyword arguments of `Environment.query`, all optional. -/
structure QueryArgs where
  agent_name : Option String := none
  limit : Option Nat := none
  order : SortOrder := .desc
  artifact_type : Option String := none
  cycle_range : Option (Int × Int) := none
  random_sample : Option Nat := none
  has_uncertainty : Option Bool := none
  has_profile_update : Option Bool := none
  before_cycle : Option Int := none
  after_cycle : Option Int := none

/-- `if agent_name:` — the filter is skipped when the argument is `None`
*or* the empty string (Python truthiness). -/
def filterAgent (an : Option String) (r : List Artifact) : List Artifact :=
  match an with
  | some s => if s = "" then r else r.filter (fun a => a.agent_name = s)
  | none => r

/-- `if artifact_type:` — same truthiness as `filterAgent`. -/
def filterType (at_ : Option String) (r : List Artifact) : List Artifact :=
  match at_ with
  | some s => if s = "" then r else r.filter (fun a => a.artifact_type.value = s)
  | none => r

/-- `if cycle_range:` — a 2-tuple is always truthy, so the filter applies
whenever the argument is present. -/
def filterCycleRange (cr : Option (Int × Int)) (r : List Artifact) : List Artifact :=
  match cr with
  | some (min_cycle, max_cycle) =>
    r.filter (fun a => min_cycle ≤ a.cycle_id ∧ a.cycle_id ≤ max_cycle)
  | none => r

/-- `if before_cycle is not None:`. -/
def filterBefore (b : Option Int) (r : List Artifact) : List Artifact :=
  match b with
  | some bc => r.filter (fun a => a.cycle_id < bc)
  | none => r

/-- `if after_cycle is not None:`. -/
def filterAfter (b : Option Int) (r : List Artifact) : List Artifact :=
  match b with
  | some ac => r.filter (fun a => ac < a.cycle_id)
  | none => r

/-- `if has_uncertainty is not None:` — keep records whose
`meta_cognition.uncertainties.strip()` truthiness matches the flag. -/
def filterUncertainty (h : Option Bool) (r : List Artifact) : List Artifact :=
  match h with
  | some true => r.filter (fun a => hasNonWs a.artifact.meta_cognition.uncertainties)
  | some false => r.filter (fun a => !hasNonWs a.artifact.meta_cognition.uncertainties)
  | none => r

/-- Python truthiness of `a.profile_update and a.profile_update.proposed_changes`. -/
def hasProposedChanges (a : Artifact) : Bool :=
  match a.profile_update with
  | some pu => !pu.proposed_changes.isEmpty
  | none => false

/-- `if has_profile_update is not None:`. -/
def filterProfileUpd (h : Option Bool) (r : List Artifact) : List Artifact :=
  match h with
  | some true => r.filter (fun a => hasProposedChanges a)
  | some false => r.filter (fun a => !hasProposedChanges a)
  | none => r

/-- The filter phase of `Environment.query`, in source order: agent, type,
cycle range, before, after, uncertainty, profile update. -/
def applyFilters (cache : List Artifact) (q : QueryArgs) : List Artifact :=
  filterProfileUpd q.has_profile_update
    (filterUncertainty q.has_uncertainty
      (filterAfter q.after_cycle
        (filterBefore q.before_cycle
          (filterCycleRange q.cycle_range
            (filterType q.artifact_type
              (filterAgent q.agent_name cache))))))

/-- The sort key of `Environment.query`: `(a.cycle_id, a.timestamp)`. -/
def sortKey (a : Artifact) : Int × Nat := (a.cycle_id, a.timestamp)

/-- Lexicographic `≤` on sort keys (Python tuple comparison). -/
def keyLe (x y : Int × Nat) : Bool :=
  if x.1 = y.1 then decide (x.2 ≤ y.2) else decide (x.1 < y.1)

/-- `results.sort(key=..., reverse=(order == "desc"))`: a stable sort by the
key; `reverse=True` reverses the comparison of unequal keys but, being
stable, keeps equal-key elements in their original order. -/
def pySortArtifacts (o : SortOrder) (r : List Artifact) : List Artifact :=
  match o with
  | .asc => sortLe (fun a b => keyLe (sortKey a) (sortKey b)) r
  | .desc => sortLe (fun a b => keyLe (sortKey b) (sortKey a)) r

/-- `Environment.query`.  `sample` threads the draw of
`random.sample(results, k)` (an arbitrary selection function); it is
consulted only when `random_sample` is given and `k < len(results)`. -/
def Environment.query (cache : List Artifact) (q : QueryArgs)
    (sample : List Artifact → Nat → List Artifact) : List Artifact :=
  let results := applyFilters cache q
  let results := pySortArtifacts q.order results
  let results :=
    match q.random_sample with
    | some k => if k < results.length then sample results k else results
    | none => results
  match q.limit with
  | some n => results.take n
  | none => results

/-! ### Satisfaction predicates for the filter phase -/

/-- Lift a per-value predicate to an optional filter argument: an absent
argument filters nothing. -/
def optSat {X : Type} (P : X → Artifact → Prop) (o : Option X) (a : Artifact) : Prop :=
  match o with
  | some v => P v a
  | none => True

/-- What `filterAgent` keeps. -/
def satAgent : Option String → Artifact → Prop :=
  optSat fun s a => s = "" ∨ a.agent_name = s

/-- What `filterType` keeps. -/
def satType : Option String → Artifact → Prop :=
  optSat fun s a => s = "" ∨ a.artifact_type.value = s

/-- What `filterCycleRange` keeps. -/
def satCycleRange : Option (Int × Int) → Artifact → Prop :=
  optSat fun cr a => cr.1 ≤ a.cycle_id ∧ a.cycle_id ≤ cr.2

/-- What `filterBefore` keeps. -/
def satBefore : Option Int → Artifact → Prop :=
  optSat fun b a => a.cycle_id < b

/-- What `filterAfter` keeps. -/
def satAfter : Option Int → Artifact → Prop :=
  optSat fun b a => b < a.cycle_id

/-- What `filterUncertainty` keeps. -/
def satUncertainty : Option Bool → Artifact → Prop :=
  optSat fun b a => hasNonWs a.artifact.meta_cognition.uncertainties = b

/-- What `filterProfileUpd` keeps. -/
def satProfileUpd : Option Bool → Artifact → Prop :=
  optSat fun b a => hasProposedChanges a = b

theorem mem_filterAgent (an : Option String) (r : List Artifact) (x : Artifact) :
    x ∈ filterAgent an r ↔ x ∈ r ∧ satAgent an x := by
  cases an with
  | none => simp [filterAgent, satAgent, optSat]
  | some s =>
    by_cases h : s = "" <;>
      simp [filterAgent, satAgent, optSat, h, List.mem_filter]

theorem mem_filterType (at_ : Option String) (r : List Artifact) (x : Artifact) :
    x ∈ filterType at_ r ↔ x ∈ r ∧ satType at_ x := by
  cases at_ with
  | none => simp [filterType, satType, optSat]
  | some s =>
    by_cases h : s = "" <;>
      simp [filterType, satType, optSat, h, List.mem_filter]

theorem mem_filterCycleRange (cr : Option (Int × Int)) (r : List Artifact) (x : Artifact) :
    x ∈ filterCycleRange cr r ↔ x ∈ r ∧ satCycleRange cr x := by
  cases cr with
  | none => simp [filterCycleRange, satCycleRange, optSat]
  | some p => simp [filterCycleRange, satCycleRange, optSat, List.mem_filter]

theorem mem_filterBefore (b : Option Int) (r : List Artifact) (x : Artifact) :
    x ∈ filterBefore b r ↔ x ∈ r ∧ satBefore b x := by
  cases b with
  | none => simp [filterBefore, satBefore, optSat]
  | some bc => simp [filterBefore, satBefore, optSat, List.mem_filter]

theorem mem_filterAfter (b : Option Int) (r : List Artifact) (x : Artifact) :
    x ∈ filterAfter b r ↔ x ∈ r ∧ satAfter b x := by
  cases b with
  | none => simp [filterAfter, satAfter, optSat]
  | some ac => simp [filterAfter, satAfter, optSat, List.mem_filter]

theorem mem_filterUncertainty (h : Option Bool) (r : List Artifact) (x : Artifact) :
    x ∈ filterUncertainty h r ↔ x ∈ r ∧ satUncertainty h x := by
  cases h with
  | none => simp [filterUncertainty, satUncertainty, optSat]
  | some b =>
    cases b <;> simp [filterUncertainty, satUncertainty, optSat, List.mem_filter]

theorem mem_filterProfileUpd (h : Option Bool) (r : List Artifact) (x : Artifact) :
    x ∈ filterProfileUpd h r ↔ x ∈ r ∧ satProfileUpd h x := by
  cases h with
  | none => simp [filterProfileUpd, satProfileUpd, optSat]
  | some b =>
    cases b <;> simp [filterProfileUpd, satProfileUpd, optSat, List.mem_filter]

/-- The conjunction of all filter conditions of a query. -/
def Satisfies (q : QueryArgs) (a : Artifact) : Prop :=
  satAgent q.agent_name a ∧ satType q.artifact_type a ∧
    satCycleRange q.cycle_range a ∧ satBefore q.before_cycle a ∧
    satAfter q.after_cycle a ∧ satUncertainty q.has_uncertainty a ∧
    satProfileUpd q.has_profile_update a

theorem mem_applyFilters (cache : List Artifact) (q : QueryArgs) (x : Artifact) :
    x ∈ applyFilters cache q ↔ x ∈ cache ∧ Satisfies q x := by
  unfold applyFilters Satisfies
  rw [mem_filterProfileUpd, mem_filterUncertainty, mem_filterAfter,
    mem_filterBefore, mem_filterCycleRange, mem_filterType, mem_filterAgent]
  tauto

/-! ## World: external content pool (`src/world/world.py`) -/

/-- `ContentType` enum. -/
inductive ContentType where
  | text
  | code
  | data
deriving DecidableEq

/-- The `.value` string of each `ContentType` member. -/
def ContentType.value : ContentType → String
  | .text => "text"
  | .code => "code"
  | .data => "data"

/-- A piece of World content (`WorldContent`); `metadata` is a free-form
string dict, `added_at` the creation timestamp. -/
structure WorldContent where
  id : String
  content_type : ContentType
  title : String
  content : String
  metadata : List (String × String) := []
  added_at : Nat := 0
deriving DecidableEq

/-- Python dict assignment `d[k] = v`: replace in place when the key exists
(keeping its insertion position), else append. -/
def dictSet (d : List (String × WorldContent)) (k : String) (v : WorldContent) :
    List (String × WorldContent) :=
  match d with
  | [] => [(k, v)]
  | (k', v') :: t => if k' = k then (k, v) :: t else (k', v') :: dictSet t k v

/-- Python dict lookup `d.get(k)`. -/
def dictGet (d : List (String × WorldContent)) (k : String) : Option WorldContent :=
  match d with
  | [] => none
  | (k', v') :: t => if k' = k then some v' else dictGet t k

/-- The World state: `_content` is an insertion-ordered dict from id to
content; `_by_type` the per-category secondary index of ids. -/
structure World where
  content : List (String × WorldContent)
  by_type : ContentType → List String

/-- A World with no content (`_by_type` seeded with an empty list per type). -/
def World.empty : World := ⟨[], fun _ => []⟩

/-- `World.add_content`: store under `content.id` (replacing any previous
entry with that id) and append the id to the category index
unconditionally. -/
def World.add_content (w : World) (c : WorldContent) : World :=
  { content := dictSet w.content c.id c
    by_type := fun t => if t = c.content_type then w.by_type t ++ [c.id] else w.by_type t }

/-- `World.get_by_id`. -/
def World.get_by_id (w : World) (content_id : String) : Option WorldContent :=
  dictGet w.content content_id

/-- `World.count`: total entries, or the length of one category's id list. -/
def World.count (w : World) (content_type : Option ContentType := none) : Nat :=
  match content_type with
  | some t => (w.by_type t).length
  | none => w.content.length

/-- The accumulation loop of `World.search`: append each match, and `break`
as soon as `len(results) >= limit` *after* an append (so `limit = 0` still
returns the first match, as in the source). -/
def searchLoop (p : WorldContent → Bool) (limit : Nat)
    (results : List WorldContent) : List WorldContent → List WorldContent
  | [] => results
  | c :: t =>
    if p c then
      let results' := results ++ [c]
      if limit ≤ results'.length then results' else searchLoop p limit results' t
    else searchLoop p limit results t

/-- `World.search`: case-insensitive substring match on body or title over
the candidates in insertion order, stopping after `limit` matches. -/
def World.search (w : World) (query : String)
    (content_type : Option ContentType := none) (limit : Nat := 10) :
    List WorldContent :=
  let query_lower := strLower query
  let candidates : List WorldContent := w.content.map (fun kv => kv.2)
  let candidates : List WorldContent :=
    match content_type with
    | some t => candidates.filter (fun c => c.content_type = t)
    | none => candidates
  searchLoop
    (fun c =>
      pyStrContains (strLower c.content) query_lower ||
        pyStrContains (strLower c.title) query_lower)
    limit [] candidates

/-- `World.sample`: draw `min(n, len(ids))` ids without replacement from the
chosen id list and look each up in `_content`.  `pick` threads the
`random.sample` draw (it returns a selection of positions of `ids`; with a
duplicated id in a category index the same entry can be drawn through two
different slots). -/
def World.sample (w : World) (content_type : Option ContentType) (n : Nat)
    (pick : List String → Nat → List String) : List WorldContent :=
  let ids :=
    match content_type with
    | some t => w.by_type t
    | none => w.content.map (fun kv => kv.1)
  if ids.isEmpty then []
  else (pick ids (min n ids.length)).filterMap (fun i => dictGet w.content i)

/-- `World.get_anomalous_sample`: pick one entry uniformly from the nonzero
category of least count.  Python's `sorted` is a stable sort; ties on the
minimum count resolve to the earliest category in dict insertion order
(text, code, data). -/
def World.get_anomalous_sample (w : World)
    (pick : List String → Nat → List String) : Option WorldContent :=
  let type_counts :=
    [ContentType.text, ContentType.code, ContentType.data].map
      (fun t => (t, (w.by_type t).length))
  if type_counts.all (fun tc => tc.2 = 0) then none
  else
    let sorted_types :=
      sortLe (fun x y => decide (x.2 ≤ y.2))
        (type_counts.filter (fun tc => 0 < tc.2))
    match sorted_types with
    | [] => none
    | (minority_type, _) :: _ =>
      match w.sample (some minority_type) 1 pick with
      | [] => none
      | c :: _ => some c

/-! ## Read-request resolution (`Kernel.execute_read_requests`) -/

/-- One entry of `read_requests_env`: the filter dict passed to
`Environment.query`, together with the `random.sample` draw that query would
use (nondeterminism threaded per request). -/
structure EnvReadReq where
  filter : QueryArgs
  sample : List Artifact → Nat → List Artifact

/-- One entry of `read_requests_world`: the filter dict.  `random_sample`
takes precedence over `query` (the `elif`); a request with neither key
contributes nothing.  `pick` threads the `random.sample` draw of
`World.sample`. -/
structure WorldReadReq where
  random_sample : Option Nat := none
  query : Option String := none
  limit : Option Nat := none
  pick : List String → Nat → List String := fun ids _ => ids

/-- The `seen_ids` dedup loop of `Kernel.execute_read_requests`: keep each
artifact whose `id` has not been seen, in order. -/
def dedupById (l : List Artifact) : List Artifact :=
  (l.foldl
    (fun acc t => if t.id ∈ acc.1 then acc else (t.id :: acc.1, acc.2 ++ [t]))
    (([] : List String), ([] : List Artifact))).2

/-- Modelled from the spec's words ("deduplicate by identity while
preserving first-seen order"): keep the first occurrence of every id, at its
original relative position.  Used only as the specification side of the
refinement proof for the dedup step. -/
def dedupFirstOcc : List Artifact → List Artifact
  | [] => []
  | a :: t => a :: dedupFirstOcc (t.filter (fun b => ¬ b.id = a.id))
termination_by l => l.length
decreasing_by
  simp only [List.length_cons]
  exact Nat.lt_succ_of_le (List.length_filter_le _ _)

/-- `Kernel.execute_read_requests`: resolve the env requests in order
through `Environment.query`, concatenate, dedup by id; resolve the world
requests in order (sample / search), concatenate without dedup. -/
def execute_read_requests (cache : List Artifact) (w : World)
    (env_reqs : List EnvReadReq) (world_reqs : List WorldReadReq) :
    List Artifact × List WorldContent :=
  let env_traces := env_reqs.flatMap (fun r => Environment.query cache r.filter r.sample)
  let env_traces := dedupById env_traces
  let world_content := world_reqs.flatMap (fun r =>
    match r.random_sample with
    | some n => w.sample none n r.pick
    | none =>
      match r.query with
      | some q => w.search q none (r.limit.getD 5)
      | none => [])
  (env_traces, world_content)

/-- Helper: the dedup loop with its `seen` accumulator made explicit. -/
def dedupAux (seen : List String) : List Artifact → List Artifact
  | [] => []
  | a :: t => if a.id ∈ seen then dedupAux seen t else a :: dedupAux (a.id :: seen) t

theorem dedupById_foldl (l : List Artifact) :
    ∀ (seen : List String) (acc : List Artifact),
      (l.foldl
        (fun acc t => if t.id ∈ acc.1 then acc else (t.id :: acc.1, acc.2 ++ [t]))
        (seen, acc)).2 = acc ++ dedupAux seen l := by
  induction l with
  | nil => intro seen acc; simp [dedupAux]
  | cons a t ih =>
    intro seen acc
    by_cases h : a.id ∈ seen
    · simp [List.foldl_cons, h, dedupAux, ih]
    · simp [List.foldl_cons, h, dedupAux, ih]

theorem dedupFirstOcc_cons (a : Artifact) (t : List Artifact) :
    dedupFirstOcc (a :: t) = a :: dedupFirstOcc (t.filter (fun b => ¬ b.id = a.id)) := by
  rw [dedupFirstOcc]

theorem dedupAux_eq_dedupFirstOcc_filter (l : List Artifact) :
    ∀ seen : List String,
      dedupAux seen l = dedupFirstOcc (l.filter (fun a => ¬ a.id ∈ seen)) := by
  induction l with
  | nil => intro seen; simp [dedupAux, dedupFirstOcc]
  | cons a t ih =>
    intro seen
    by_cases h : a.id ∈ seen
    · simp [dedupAux, h, List.filter_cons, ih]
    · rw [dedupAux]
      simp only [h, if_neg, not_false_eq_true, ite_false]
      have hpa : List.filter (fun x : Artifact => decide (¬ x.id ∈ seen)) (a :: t) =
          a :: List.filter (fun x : Artifact => decide (¬ x.id ∈ seen)) t := by
        simp [List.filter_cons, h]
      rw [hpa, dedupFirstOcc_cons, ih (a.id :: seen), List.filter_filter]
      congr 2
      apply List.filter_congr
      intro b _
      by_cases hb1 : b.id = a.id <;> by_cases hb2 : b.id ∈ seen <;>
        simp [hb1, hb2]

theorem dedupById_eq_dedupFirstOcc (l : List Artifact) :
    dedupById l = dedupFirstOcc l := by
  rw [dedupById, dedupById_foldl l [] []]
  have h : l.filter (fun a => ¬ a.id ∈ ([] : List String)) = l := by
    apply List.filter_eq_self.mpr
    intro a _
    simp
  rw [dedupAux_eq_dedupFirstOcc_filter l [], h]
  simp

theorem mem_dedupFirstOcc_sub {b : Artifact} :
    ∀ {l : List Artifact}, b ∈ dedupFirstOcc l → b ∈ l := by
  intro l
  induction l using dedupFirstOcc.induct with
  | case1 => intro h; simp [dedupFirstOcc] at h
  | case2 a t ih =>
    intro h
    rw [dedupFirstOcc_cons] at h
    rcases List.mem_cons.mp h with rfl | h
    · exact List.mem_cons_self _ _
    · exact List.mem_cons_of_mem a (List.mem_of_mem_filter (ih h))

theorem nodup_ids_dedupFirstOcc :
    ∀ l : List Artifact, ((dedupFirstOcc l).map (fun a => a.id)).Nodup := by
  intro l
  induction l using dedupFirstOcc.induct with
  | case1 => simp [dedupFirstOcc]
  | case2 a t ih =>
    rw [dedupFirstOcc_cons]
    simp only [List.map_cons, List.nodup_cons]
    refine ⟨?_, ih⟩
    intro hmem
    obtain ⟨b, hb, hid⟩ := List.mem_map.mp hmem
    have hbf := mem_dedupFirstOcc_sub hb
    have := List.of_mem_filter hbf
    simp at this
    exact this hid

/-! ## Agent output parsing (`src/agents/base_agent.py`) -/

/-- The identity of an agent as used when constructing artifacts: its name
and its current preferences (for the `profile_snapshot`). -/
structure AgentCtx where
  name : String
  preferences : CognitivePreferences
deriving DecidableEq

/-- `Agent._create_error_artifact`: the fallback artifact for parsing
failures.  Category `partial_theory`, a single step labeled `error` holding
the first 500 characters of the error information, fixed non-empty
meta-cognition texts. -/
def create_error_artifact (agent : AgentCtx) (cycle_id : Int) (timestamp : Nat)
    (error_info : String) : Artifact :=
  { agent_name := agent.name
    cycle_id := cycle_id
    timestamp := timestamp
    artifact_type := .partialTheory
    artifact :=
      { description := "Error parsing agent output"
        steps := [⟨"error", error_info.take 500⟩]
        meta_cognition :=
          ⟨"Output parsing failed", "N/A", "Cannot determine due to error"⟩ }
    profile_update := none
    profile_snapshot := some agent.preferences.dump
    silence_flag := false
    id := mkArtifactId agent.name cycle_id timestamp }

/-- The parsed `profile_update` sub-dict (present only when the raw dict is
truthy, i.e. nonempty). -/
structure ParsedProfileUpdate where
  proposed_changes : Option (List (String × PVal)) := none
  comment : Option String := none
deriving DecidableEq

/-- A successfully decoded and well-shaped JSON output of the think-step:
the fields `Agent._parse_output` reads from the parsed dict, each optional.
JSON decoding itself and the pydantic shape validation of `steps` /
`meta_cognition` are external; an output failing either is a decode
failure (the `except json.JSONDecodeError` and `except Exception` branches
both degrade to `_create_error_artifact`). -/
structure ParsedArtifact where
  description : Option String := none
  steps : List Step := []
  meta_self_observation : Option String := none
  meta_influence : Option String := none
  meta_uncertainties : Option String := none
  profile_update : Option ParsedProfileUpdate := none
  artifact_type_value : Option String := none
  silence_flag : Option Bool := none
deriving DecidableEq

/-- The artifact built from a successfully parsed output (`_parse_output`,
success path): defaults fill the missing fields, an unknown
`artifact_type` string falls back to `partial_theory`. -/
def build_artifact (agent : AgentCtx) (cycle_id : Int) (timestamp : Nat)
    (d : ParsedArtifact) : Artifact :=
  let meta_cognition : MetaCognition :=
    ⟨d.meta_self_observation.getD "Unable to observe self",
     d.meta_influence.getD "Unknown",
     d.meta_uncertainties.getD "Cannot determine"⟩
  let content : ArtifactContent :=
    ⟨d.description.getD "No description", d.steps, meta_cognition⟩
  let pu : Option ProfileUpdate :=
    d.profile_update.map fun p => ⟨p.proposed_changes.getD [], p.comment.getD ""⟩
  let at_str := d.artifact_type_value.getD "partial_theory"
  { agent_name := agent.name
    cycle_id := cycle_id
    timestamp := timestamp
    artifact_type := (ArtifactType.fromValue at_str).getD .partialTheory
    artifact := content
    profile_update := pu
    profile_snapshot := some agent.preferences.dump
    silence_flag := d.silence_flag.getD false
    id := mkArtifactId agent.name cycle_id timestamp }

/-- `Agent._parse_output`: decode the raw think-step output; on failure
return the fallback artifact with the raw output as error information,
otherwise build the artifact from the parsed data.  `decodeJson` is the
external JSON/shape decoding step. -/
def parse_output (agent : AgentCtx) (decodeJson : String → Option ParsedArtifact)
    (cycle_id : Int) (timestamp : Nat) (raw_output : String) : Artifact :=
  match decodeJson raw_output with
  | none => create_error_artifact agent cycle_id timestamp raw_output
  | some d => build_artifact agent cycle_id timestamp d

/-! ## Kernel (`src/kernel/kernel.py`) -/

/-- A perturbation payload ("informational meteor"), one of the three dict
shapes built by `Kernel._generate_perturbation`. -/
inductive Perturbation where
  | old_trace (agent : String) (cycle : Int) (description : String) (tpe : String)
  | anomalous_world (tpe : String) (title : String) (excerpt : String)
  | compressed_summary (content : String)
deriving DecidableEq

/-- `Kernel._schedule_next_perturbation`: `current_cycle + randint(min, max)`;
`draw` is the value drawn by `random.randint(perturbation_min,
perturbation_max)`. -/
def schedule_next_perturbation (current_cycle : Int) (draw : Int) : Int :=
  current_cycle + draw

/-- `Kernel._generate_perturbation`.  `choice` is the `random.choice` over
the three perturbation kinds; `sampleEnv` and `pickWorld` thread the random
draws of the underlying queries.  Returns `none` when the chosen source has
no data. -/
def generate_perturbation (cache : List Artifact) (w : World) (current_cycle : Int)
    (choice : Fin 3) (sampleEnv : List Artifact → Nat → List Artifact)
    (pickWorld : List String → Nat → List String) : Option Perturbation :=
  match choice with
  | 0 =>
    let old_traces := Environment.query cache
      { random_sample := some 1, before_cycle := some (max 1 (current_cycle - 20)) }
      sampleEnv
    match old_traces with
    | [] => none
    | trace :: _ =>
      some (.old_trace trace.agent_name trace.cycle_id trace.artifact.description
        trace.artifact_type.value)
  | 1 =>
    match w.get_anomalous_sample pickWorld with
    | none => none
    | some c =>
      some (.anomalous_world c.content_type.value c.title (c.content.take 300))
  | 2 =>
    let old_traces := Environment.query cache
      { random_sample := some 3, before_cycle := some (max 1 (current_cycle - 10)) }
      sampleEnv
    match old_traces with
    | [] => none
    | _ =>
      let summary_parts := old_traces.map fun t =>
        "[" ++ t.agent_name ++ "@" ++ toString t.cycle_id ++ "]: "
          ++ t.artifact.description.take 50 ++ "..."
      some (.compressed_summary (String.intercalate " | " summary_parts))

/-- What the kernel hands to `Agent.think` (the external think-step):
cycle id, resolved log context, resolved pool context, the optional
perturbation payload. -/
structure AgentThinkInput where
  cycle_id : Int
  env_traces : List Artifact
  world_content : List WorldContent
  perturbation : Option Perturbation

/-- An agent as the kernel sees it: its read-request generation and its
think-step (the latter an external collaborator wrapping the LLM). -/
structure AgentOps where
  generate_read_requests : Int → Nat → Bool → List EnvReadReq × List WorldReadReq
  think : AgentThinkInput → Artifact

/-- `Kernel.run_agent_cycle`: build read requests, resolve them, think,
append the artifact, and conditionally apply the proposed profile update.
The RAG indexing step is an external side effect with no kernel-visible
state.  A `ValueError` raised by an invalid categorical profile value would
abort the Python cycle after the append; the embedding carries the
partially-updated profile onward (no claim depends on data computed after
such a raise). -/
def run_agent_cycle (w : World) (e : Environment) (agent : AgentOps)
    (profile : CognitiveProfile) (cycle_id : Int)
    (perturbation : Option Perturbation) :
    Environment × CognitiveProfile × Artifact × AgentThinkInput :=
  let reqs := agent.generate_read_requests cycle_id e.cache.length (0 < w.content.length)
  let resolved := execute_read_requests e.cache w reqs.1 reqs.2
  let input : AgentThinkInput := ⟨cycle_id, resolved.1, resolved.2, perturbation⟩
  let artifact := agent.think input
  let e' := e.append artifact
  let profile' :=
    match artifact.profile_update with
    | some pu =>
      if pu.proposed_changes.isEmpty then profile
      else (profile.update pu.proposed_changes cycle_id pu.comment).profile
    | none => profile
  (e', profile', artifact, input)

/-- The kernel state: stores, the two profiles, perturbation bounds, the
scheduler state `_next_perturbation_cycle`, and `current_cycle`. -/
structure SimState where
  environment : Environment
  world : World
  profile_a : CognitiveProfile
  profile_b : CognitiveProfile
  perturbation_min : Int
  perturbation_max : Int
  next_perturbation_cycle : Int
  current_cycle : Int

/-- The random draws one call of `Kernel.run_cycle` can consume. -/
structure CycleRand where
  draw : Int
  choice : Fin 3
  sampleEnv : List Artifact → Nat → List Artifact := fun l _ => l
  pickWorld : List String → Nat → List String := fun l _ => l

/-- The observable outcome of one `Kernel.run_cycle`: whether the scheduler
fired, the shared perturbation payload, and each agent's think input and
artifact. -/
structure CycleOutcome where
  cycle_id : Int
  fired : Bool
  perturbation : Option Perturbation
  input_a : AgentThinkInput
  artifact_a : Artifact
  input_b : AgentThinkInput
  artifact_b : Artifact

/-- `Kernel.__init__`: the scheduler is seeded with
`_schedule_next_perturbation(0)` — note: from cycle 0, not from the resumed
`current_cycle`, which is read from the log afterwards.  `g0` is the
construction-time `randint` draw. -/
def kernel_init (environment : Environment) (world : World)
    (profile_a profile_b : CognitiveProfile)
    (perturbation_min perturbation_max : Int) (g0 : Int) : SimState :=
  { environment := environment
    world := world
    profile_a := profile_a
    profile_b := profile_b
    perturbation_min := perturbation_min
    perturbation_max := perturbation_max
    next_perturbation_cycle := schedule_next_perturbation 0 g0
    current_cycle := environment.get_latest_cycle_id }

/-- `Kernel.run_cycle`: advance the cycle counter; if it reached
`_next_perturbation_cycle`, generate one perturbation payload and
reschedule; run agent A, then agent B, passing both the *same* payload. -/
def run_cycle (a b : AgentOps) (r : CycleRand) (s : SimState) :
    SimState × CycleOutcome :=
  let cycle_id := s.current_cycle + 1
  let fired : Bool := s.next_perturbation_cycle ≤ cycle_id
  let perturbation :=
    if fired then
      generate_perturbation s.environment.cache s.world cycle_id r.choice
        r.sampleEnv r.pickWorld
    else none
  let next' :=
    if fired then schedule_next_perturbation cycle_id r.draw
    else s.next_perturbation_cycle
  let ra := run_agent_cycle s.world s.environment a s.profile_a cycle_id perturbation
  let rb := run_agent_cycle s.world ra.1 b s.profile_b cycle_id perturbation
  ({ s with
      environment := rb.1
      profile_a := ra.2.1
      profile_b := rb.2.1
      next_perturbation_cycle := next'
      current_cycle := cycle_id },
   ⟨cycle_id, fired, perturbation, ra.2.2.2, ra.2.2.1, rb.2.2.2, rb.2.2.1⟩)

/-- `Kernel.run_cycles`: run `n` cycles; `rs i` supplies the random draws of
the `i`-th cycle. -/
def run_cycles (a b : AgentOps) (rs : Nat → CycleRand) :
    Nat → SimState → SimState × List CycleOutcome
  | 0, s => (s, [])
  | n + 1, s =>
    let prev := run_cycles a b rs n s
    let step := run_cycle a b (rs n) prev.1
    (step.1, prev.2 ++ [step.2])

/-! ## Claims -/

theorem cache_foldl_append (e : Environment) :
    ∀ l : List Artifact, (l.foldl Environment.append e).cache = e.cache ++ l := by
  intro l
  induction l generalizing e with
  | nil => simp
  | cons a t ih => simp [List.foldl_cons, ih, Environment.append]

/-- C8: reload is idempotent — for every initial persisted file and every
sequence of appends, replaying the resulting file top to bottom yields
exactly the in-memory cache (same records, same order) held before closing. -/
theorem C8_reload_idempotent (file0 : List FileLine) (appends : List Artifact) :
    (Environment.load
      ((appends.foldl Environment.append (Environment.load file0)).file)).cache =
      (appends.foldl Environment.append (Environment.load file0)).cache := by
  show loadArtifacts ((appends.foldl Environment.append
    (Environment.load file0)).file) =
    (appends.foldl Environment.append (Environment.load file0)).cache
  suffices h : ∀ e : Environment, loadArtifacts e.file = e.cache →
      loadArtifacts ((appends.foldl Environment.append e).file) =
        (appends.foldl Environment.append e).cache by
    exact h _ rfl
  induction appends with
  | nil => intro e he; simpa using he
  | cons a t ih =>
    intro e he
    simp only [List.foldl_cons]
    apply ih
    have hstep : loadArtifacts (e.file ++ [FileLine.record a]) =
        loadArtifacts e.file ++ [a] := by
      simp [loadArtifacts, List.filterMap_append]
    simp [Environment.append, hstep, he]

/-- C10: `Environment.query` treats an empty-string `agent_name` (or
`artifact_type`) exactly as an absent filter, because of Python truthiness
(`if agent_name:`); consequently no query can select records with an empty
agent name through that filter. -/
theorem C10_empty_string_filter_absent (q : QueryArgs) (cache : List Artifact)
    (sample : List Artifact → Nat → List Artifact) :
    (Environment.query cache { q with agent_name := some "" } sample =
      Environment.query cache { q with agent_name := none } sample) ∧
    (Environment.query cache { q with artifact_type := some "" } sample =
      Environment.query cache { q with artifact_type := none } sample) := by
  constructor <;>
    simp [Environment.query, applyFilters, filterAgent, filterType]

/-- C6: within one cycle, if a perturbation fires, both agents' think-step
inputs carry the identical perturbation payload — `run_cycle` computes the
payload once and hands this one value to both `run_agent_cycle` calls. -/
theorem C6_perturbation_shared (a b : AgentOps) (r : CycleRand) (s : SimState) :
    ((run_cycle a b r s).2.input_a.perturbation =
      (run_cycle a b r s).2.input_b.perturbation) ∧
    ((run_cycle a b r s).2.input_a.perturbation =
      (run_cycle a b r s).2.perturbation) := by
  constructor <;> rfl

/-- C3 (amended): the resolver deduplicates the artifact-log concatenation
by record identity, keeping each record exactly once at the position of its
first occurrence (the output equals the keep-first-occurrence function of
the concatenated per-request query results, and the resulting ids are
pairwise distinct).  Content-pool results, by contrast, are concatenated
without deduplication (see the counterexample). -/
theorem C3_env_dedup_first_occurrence (cache : List Artifact) (w : World)
    (env_reqs : List EnvReadReq) (world_reqs : List WorldReadReq) :
    ((execute_read_requests cache w env_reqs world_reqs).1 =
      dedupFirstOcc (env_reqs.flatMap fun r =>
        Environment.query cache r.filter r.sample)) ∧
    (((execute_read_requests cache w env_reqs world_reqs).1.map
      (fun a => a.id)).Nodup) := by
  have h1 : (execute_read_requests cache w env_reqs world_reqs).1 =
      dedupById (env_reqs.flatMap fun r =>
        Environment.query cache r.filter r.sample) := rfl
  constructor
  · rw [h1, dedupById_eq_dedupFirstOcc]
  · rw [h1, dedupById_eq_dedupFirstOcc]
    exact nodup_ids_dedupFirstOcc _

/-- The pool entry used in the C3 counterexample. -/
def c3entry : WorldContent :=
  { id := "w1", content_type := .text, title := "foo", content := "bar" }

/-- The duplicated world read-request of the C3 counterexample. -/
def c3req : WorldReadReq := { query := some "foo" }

/-- C3 counterexample: two overlapping content-pool requests (both matching
the same entry) yield that record twice in the resolved pool output — the
claim's "each overlapping record appears exactly once" fails for the
content-pool target, which `execute_read_requests` does not deduplicate. -/
theorem C3_counterexample :
    ((execute_read_requests [] (World.empty.add_content c3entry) []
        [c3req, c3req]).2 = [c3entry, c3entry]) ∧
    ((execute_read_requests [] (World.empty.add_content c3entry) []
        [c3req, c3req]).2.count c3entry = 2) := by
  constructor <;> decide

/-- The agent context used in the C2 counterexample and witness. -/
def c2agent : AgentCtx := ⟨"Agent A", {}⟩

/-- C2 counterexample: on a raw output that fails to decode, the parse path
returns the fallback artifact, but its category is `partial_theory`, not
"unparseable" — `ArtifactType` has no such member. -/
theorem C2_counterexample :
    ((parse_output c2agent (fun _ => none) 1 0 "not json").artifact_type.value
      = "partial_theory") ∧
    ¬ ((parse_output c2agent (fun _ => none) 1 0 "not json").artifact_type.value
      = "unparseable") := by
  constructor <;> decide

/-- C2 (amended): for every raw think-step output that fails to decode, the
parse path returns (it cannot raise) the fallback artifact: category
`partial_theory` (the enumeration has no "unparseable" member), exactly one
reasoning step holding the error information truncated to 500 characters,
and all three meta-reflection fields non-empty. -/
theorem C2_fallback_artifact (agent : AgentCtx)
    (decodeJson : String → Option ParsedArtifact) (cycle_id : Int)
    (timestamp : Nat) (raw_output : String)
    (h : decodeJson raw_output = none) :
    ((parse_output agent decodeJson cycle_id timestamp raw_output).artifact_type
      = .partialTheory) ∧
    ((parse_output agent decodeJson cycle_id timestamp raw_output).artifact.steps
      = [⟨"error", raw_output.take 500⟩]) ∧
    ((parse_output agent decodeJson cycle_id timestamp
        raw_output).artifact.meta_cognition.self_observation ≠ "") ∧
    ((parse_output agent decodeJson cycle_id timestamp
        raw_output).artifact.meta_cognition.influence_of_other_agent ≠ "") ∧
    ((parse_output agent decodeJson cycle_id timestamp
        raw_output).artifact.meta_cognition.uncertainties ≠ "") := by
  simp only [parse_output, h]
  refine ⟨rfl, rfl, ?_, ?_, ?_⟩ <;> (simp only [create_error_artifact]; decide)

/-- Witness for C2: the fallback shape at a concrete failing input. -/
theorem C2_fallback_artifact_witness :
    ((fun _ : String => (none : Option ParsedArtifact)) "x" = none) ∧
    (((parse_output c2agent (fun _ => none) 1 0 "x").artifact_type
        = .partialTheory) ∧
      ((parse_output c2agent (fun _ => none) 1 0 "x").artifact.steps
        = [⟨"error", "x".take 500⟩]) ∧
      ((parse_output c2agent (fun _ => none) 1 0
          "x").artifact.meta_cognition.self_observation ≠ "") ∧
      ((parse_output c2agent (fun _ => none) 1 0
          "x").artifact.meta_cognition.influence_of_other_agent ≠ "") ∧
      ((parse_output c2agent (fun _ => none) 1 0
          "x").artifact.meta_cognition.uncertainties ≠ "")) :=
  ⟨rfl, C2_fallback_artifact c2agent (fun _ => none) 1 0 "x" rfl⟩

/-- C1: evaluation of `CognitiveProfile.update` at the claim's own example
input, `update({"self_focus": 1.5, "world_focus": 0.1}, cycle=3)` on a
default profile.  The code *stores* the out-of-range `self_focus = 1.5`
(the `setattr` bypasses the pydantic `ge=0, le=1` field constraint), does
not raise, and records one history entry whose after-snapshot shows the
out-of-range value — the claim (and the code's own field declaration)
require `self_focus` to remain `0.5`. -/
theorem C1_update_at_failing_input :
    ((CognitiveProfile.update ⟨"Agent A", {}, []⟩
        [("self_focus", .num (Rat.mk' 3 2)), ("world_focus", .num (Rat.mk' 1 10))]
        3).raised = none) ∧
    ((CognitiveProfile.update ⟨"Agent A", {}, []⟩
        [("self_focus", .num (Rat.mk' 3 2)), ("world_focus", .num (Rat.mk' 1 10))]
        3).profile.preferences.self_focus = .num (Rat.mk' 3 2)) ∧
    ¬ ((CognitiveProfile.update ⟨"Agent A", {}, []⟩
        [("self_focus", .num (Rat.mk' 3 2)), ("world_focus", .num (Rat.mk' 1 10))]
        3).profile.preferences.self_focus = .num (Rat.mk' 1 2)) ∧
    ((CognitiveProfile.update ⟨"Agent A", {}, []⟩
        [("self_focus", .num (Rat.mk' 3 2)), ("world_focus", .num (Rat.mk' 1 10))]
        3).profile.preferences.world_focus = .num (Rat.mk' 1 10)) ∧
    ((CognitiveProfile.update ⟨"Agent A", {}, []⟩
        [("self_focus", .num (Rat.mk' 3 2)), ("world_focus", .num (Rat.mk' 1 10))]
        3).profile.history.map (fun h => h.changes) =
      [[("self_focus", .num (Rat.mk' 3 2)), ("world_focus", .num (Rat.mk' 1 10))]]) ∧
    ((CognitiveProfile.update ⟨"Agent A", {}, []⟩
        [("self_focus", .num (Rat.mk' 3 2)), ("world_focus", .num (Rat.mk' 1 10))]
        3).profile.history.map (fun h => h.after) =
      [CognitivePreferences.dump
        { self_focus := .num (Rat.mk' 3 2), world_focus := .num (Rat.mk' 1 10) }]) := by
  refine ⟨?_, ?_, ?_, ?_, ?_, ?_⟩ <;> decide

theorem keyLe_iff (x y : Int × Nat) :
    keyLe x y = true ↔ (x.1 < y.1 ∨ (x.1 = y.1 ∧ x.2 ≤ y.2)) := by
  unfold keyLe
  by_cases h : x.1 = y.1 <;> simp [h]

theorem keyLe_total (x y : Int × Nat) : keyLe x y = true ∨ keyLe y x = true := by
  rw [keyLe_iff, keyLe_iff]; omega

theorem keyLe_trans (x y z : Int × Nat) (h1 : keyLe x y = true)
    (h2 : keyLe y z = true) : keyLe x z = true := by
  rw [keyLe_iff] at h1 h2 ⊢; omega

theorem keyLe_of_key_eq {a b : Artifact} (h : sortKey a = sortKey b) :
    keyLe (sortKey a) (sortKey b) = true := by
  rw [h, keyLe_iff]; omega

/-- C4 (amended): a query with no filters and ascending order returns
exactly the appended records (a permutation), sorted by the lexicographic
order on `(cycle_id, timestamp)` — so in nondecreasing cycle order, with
ties (equal cycle numbers) broken by creation timestamp ascending — and
*remaining* ties — equal `(cycle, timestamp)` keys — by insertion order
(the filter of the result by any fixed sort key equals the filter of the
appends by that key, i.e. the sort is stable). -/
theorem C4_no_filter_asc_query (appends : List Artifact)
    (sample : List Artifact → Nat → List Artifact) :
    ((Environment.query
        (appends.foldl Environment.append (Environment.load [])).cache
        { order := .asc } sample).Perm appends) ∧
    ((Environment.query
        (appends.foldl Environment.append (Environment.load [])).cache
        { order := .asc } sample).Pairwise
      (fun x y => keyLe (sortKey x) (sortKey y) = true)) ∧
    ((Environment.query
        (appends.foldl Environment.append (Environment.load [])).cache
        { order := .asc } sample).Pairwise
      (fun x y => x.cycle_id ≤ y.cycle_id ∧
        (x.cycle_id = y.cycle_id → x.timestamp ≤ y.timestamp))) ∧
    (∀ k : Int × Nat,
      (Environment.query
        (appends.foldl Environment.append (Environment.load [])).cache
        { order := .asc } sample).filter (fun x => sortKey x = k) =
      appends.filter (fun x => sortKey x = k)) := by
  have hc : (appends.foldl Environment.append (Environment.load [])).cache = appends := by
    simpa [Environment.load, loadArtifacts] using
      cache_foldl_append (Environment.load []) appends
  have hq : Environment.query
      (appends.foldl Environment.append (Environment.load [])).cache
      { order := .asc } sample =
      sortLe (fun a b => keyLe (sortKey a) (sortKey b)) appends := by
    rw [hc]; rfl
  have hp := sortLe_pairwise (fun a b => keyLe (sortKey a) (sortKey b))
    (fun x y => keyLe_total (sortKey x) (sortKey y))
    (fun x y z => keyLe_trans (sortKey x) (sortKey y) (sortKey z)) appends
  refine ⟨?_, ?_, ?_, ?_⟩
  · rw [hq]; exact sortLe_perm _ appends
  · rw [hq]; exact hp
  · rw [hq]
    refine hp.imp ?_
    intro x y hxy
    have := (keyLe_iff (sortKey x) (sortKey y)).mp hxy
    unfold sortKey at this
    constructor
    · omega
    · intro hc; omega
  · intro k
    rw [hq]
    exact filter_sortLe _ sortKey (fun x y h => keyLe_of_key_eq h) k appends

/-- First artifact of the C4 counterexample: cycle 1, timestamp 2. -/
def c4a1 : Artifact :=
  { agent_name := "A", cycle_id := 1, timestamp := 2,
    artifact_type := .classification,
    artifact := ⟨"first", [], ⟨"s", "i", "u"⟩⟩,
    profile_update := none, profile_snapshot := none,
    silence_flag := false, id := "a_1_2" }

/-- Second artifact of the C4 counterexample: cycle 1, timestamp 1,
appended after `c4a1`. -/
def c4a2 : Artifact :=
  { agent_name := "A", cycle_id := 1, timestamp := 1,
    artifact_type := .classification,
    artifact := ⟨"second", [], ⟨"s", "i", "u"⟩⟩,
    profile_update := none, profile_snapshot := none,
    silence_flag := false, id := "a_1_1" }

/-- C4 counterexample: two records with the same cycle number appended in
the order `c4a1, c4a2`, where the later-appended record has the *earlier*
timestamp.  The ascending no-filter query sorts by `(cycle, timestamp)` and
returns `[c4a2, c4a1]` — not insertion order, so "ties (equal cycle
numbers) broken by insertion order" fails on the code. -/
theorem C4_counterexample :
    (Environment.query
      (((Environment.load []).append c4a1).append c4a2).cache
      { order := .asc } (fun l _ => l) = [c4a2, c4a1]) ∧
    ([c4a2, c4a1] ≠ ([c4a1, c4a2] : List Artifact)) := by
  constructor <;> decide

/-- Take the filter value from whichever argument set supplies it. -/
def mergeOpt {X : Type} (o1 o2 : Option X) : Option X :=
  match o1 with
  | some v => some v
  | none => o2

/-- The query arguments obtained by supplying both `q1`'s and `q2`'s filter
fields to one `Environment.query` call (ordering/sampling/limit left at
their defaults; they are outside C7's scope). -/
def mergeFilters (q1 q2 : QueryArgs) : QueryArgs :=
  { agent_name := mergeOpt q1.agent_name q2.agent_name
    artifact_type := mergeOpt q1.artifact_type q2.artifact_type
    cycle_range := mergeOpt q1.cycle_range q2.cycle_range
    before_cycle := mergeOpt q1.before_cycle q2.before_cycle
    after_cycle := mergeOpt q1.after_cycle q2.after_cycle
    has_uncertainty := mergeOpt q1.has_uncertainty q2.has_uncertainty
    has_profile_update := mergeOpt q1.has_profile_update q2.has_profile_update }

/-- No filter field is supplied by both argument sets (two distinct single
filters in particular). -/
def DisjointFilters (q1 q2 : QueryArgs) : Prop :=
  (q1.agent_name = none ∨ q2.agent_name = none) ∧
  (q1.artifact_type = none ∨ q2.artifact_type = none) ∧
  (q1.cycle_range = none ∨ q2.cycle_range = none) ∧
  (q1.before_cycle = none ∨ q2.before_cycle = none) ∧
  (q1.after_cycle = none ∨ q2.after_cycle = none) ∧
  (q1.has_uncertainty = none ∨ q2.has_uncertainty = none) ∧
  (q1.has_profile_update = none ∨ q2.has_profile_update = none)

theorem optSat_mergeOpt {X : Type} (P : X → Artifact → Prop) {o1 o2 : Option X}
    (h : o1 = none ∨ o2 = none) (a : Artifact) :
    optSat P (mergeOpt o1 o2) a ↔ (optSat P o1 a ∧ optSat P o2 a) := by
  rcases h with h | h
  · subst h; cases o2 <;> simp [mergeOpt, optSat]
  · subst h; cases o1 <;> simp [mergeOpt, optSat]

/-- C7: filters are conjunctive — for any two disjoint filter-argument sets
and any artifact list, membership in the filter phase run with both filters
is equivalent to membership in the filter phase of each alone (the set of
records returned with both filters is the intersection of the sets returned
with each; ordering, sampling and limit are applied after this phase and
are out of scope). -/
theorem C7_filter_conjunction (cache : List Artifact) (q1 q2 : QueryArgs)
    (h : DisjointFilters q1 q2) (x : Artifact) :
    x ∈ applyFilters cache (mergeFilters q1 q2) ↔
      (x ∈ applyFilters cache q1 ∧ x ∈ applyFilters cache q2) := by
  obtain ⟨h1, h2, h3, h4, h5, h6, h7⟩ := h
  have e1 := optSat_mergeOpt (fun s a => s = "" ∨ a.agent_name = s) h1 x
  have e2 := optSat_mergeOpt (fun s a => s = "" ∨ a.artifact_type.value = s) h2 x
  have e3 := optSat_mergeOpt
    (fun cr a => cr.1 ≤ a.cycle_id ∧ a.cycle_id ≤ cr.2) h3 x
  have e4 := optSat_mergeOpt (fun b a => a.cycle_id < b) h4 x
  have e5 := optSat_mergeOpt (fun b a => b < a.cycle_id) h5 x
  have e6 := optSat_mergeOpt
    (fun b a => hasNonWs a.artifact.meta_cognition.uncertainties = b) h6 x
  have e7 := optSat_mergeOpt (fun b a => hasProposedChanges a = b) h7 x
  rw [mem_applyFilters, mem_applyFilters, mem_applyFilters]
  unfold Satisfies
  simp only [mergeFilters]
  unfold satAgent satType satCycleRange satBefore satAfter satUncertainty
    satProfileUpd
  rw [e1, e2, e3, e4, e5, e6, e7]
  constructor
  · rintro ⟨hm, ⟨a1, a2⟩, ⟨b1, b2⟩, ⟨c1, c2⟩, ⟨d1, d2⟩, ⟨f1, f2⟩, ⟨g1, g2⟩,
      ⟨i1, i2⟩⟩
    exact ⟨⟨hm, a1, b1, c1, d1, f1, g1, i1⟩, ⟨hm, a2, b2, c2, d2, f2, g2, i2⟩⟩
  · rintro ⟨⟨hm, a1, b1, c1, d1, f1, g1, i1⟩, ⟨_, a2, b2, c2, d2, f2, g2, i2⟩⟩
    exact ⟨hm, ⟨a1, a2⟩, ⟨b1, b2⟩, ⟨c1, c2⟩, ⟨d1, d2⟩, ⟨f1, f2⟩, ⟨g1, g2⟩,
      ⟨i1, i2⟩⟩

/-- The artifact used in the C7 witness. -/
def c7art : Artifact :=
  { agent_name := "A", cycle_id := 1, timestamp := 0,
    artifact_type := .classification,
    artifact := ⟨"d", [], ⟨"s", "i", "u"⟩⟩,
    profile_update := none, profile_snapshot := none,
    silence_flag := false, id := "a_1_0" }

/-- Witness for C7: an agent filter conjoined with an after-cycle filter on
a one-record log. -/
theorem C7_filter_conjunction_witness :
    DisjointFilters { agent_name := some "A" } { after_cycle := some 0 } ∧
    (c7art ∈ applyFilters [c7art]
        (mergeFilters { agent_name := some "A" } { after_cycle := some 0 }) ↔
      (c7art ∈ applyFilters [c7art] { agent_name := some "A" } ∧
        c7art ∈ applyFilters [c7art] { after_cycle := some 0 })) :=
  ⟨⟨Or.inr rfl, Or.inl rfl, Or.inl rfl, Or.inl rfl, Or.inl rfl, Or.inl rfl,
      Or.inl rfl⟩,
    C7_filter_conjunction [c7art] _ _
      ⟨Or.inr rfl, Or.inl rfl, Or.inl rfl, Or.inl rfl, Or.inl rfl, Or.inl rfl,
        Or.inl rfl⟩ c7art⟩

/-- C9: the content pool does not enforce identity uniqueness.  Adding two
entries with the same id (and category) to an empty pool leaves only the
second entry reachable by id, counts one entry in total, but keeps *both*
occurrences of the id in the category index: the per-category count is 2,
the per-category counts sum to 2 > 1 = total count, and a category-scoped
sample of size 2 returns the same stored entry through both index slots. -/
theorem C9_duplicate_id_behavior (e1 e2 : WorldContent)
    (hid : e1.id = e2.id) (hct : e1.content_type = e2.content_type) :
    (((World.empty.add_content e1).add_content e2).get_by_id e1.id = some e2) ∧
    (((World.empty.add_content e1).add_content e2).count = 1) ∧
    (((World.empty.add_content e1).add_content e2).count (some e1.content_type)
      = 2) ∧
    (((World.empty.add_content e1).add_content e2).count (some .text) +
      ((World.empty.add_content e1).add_content e2).count (some .code) +
      ((World.empty.add_content e1).add_content e2).count (some .data) = 2) ∧
    (((World.empty.add_content e1).add_content e2).sample (some e1.content_type)
      2 (fun ids _ => ids) = [e2, e2]) := by
  obtain ⟨i1, t1, ti1, co1, m1, ad1⟩ := e1
  obtain ⟨i2, t2, ti2, co2, m2, ad2⟩ := e2
  simp only [] at hid hct
  subst hid
  subst hct
  cases t1 <;>
    simp [World.empty, World.add_content, World.get_by_id, World.count,
      World.sample, dictSet, dictGet, List.filterMap]

/-- First pool entry of the C9 witness. -/
def c9e1 : WorldContent :=
  { id := "x", content_type := .text, title := "t1", content := "c1" }

/-- Second pool entry of the C9 witness: same id, same category. -/
def c9e2 : WorldContent :=
  { id := "x", content_type := .text, title := "t2", content := "c2" }

/-- Witness for C9 at two concrete entries sharing the id "x". -/
theorem C9_duplicate_id_behavior_witness :
    (c9e1.id = c9e2.id) ∧ (c9e1.content_type = c9e2.content_type) ∧
    ((((World.empty.add_content c9e1).add_content c9e2).get_by_id c9e1.id
        = some c9e2) ∧
      (((World.empty.add_content c9e1).add_content c9e2).count = 1) ∧
      (((World.empty.add_content c9e1).add_content c9e2).count
        (some c9e1.content_type) = 2) ∧
      (((World.empty.add_content c9e1).add_content c9e2).count (some .text) +
        ((World.empty.add_content c9e1).add_content c9e2).count (some .code) +
        ((World.empty.add_content c9e1).add_content c9e2).count (some .data)
          = 2) ∧
      (((World.empty.add_content c9e1).add_content c9e2).sample
        (some c9e1.content_type) 2 (fun ids _ => ids) = [c9e2, c9e2])) :=
  ⟨rfl, rfl, C9_duplicate_id_behavior c9e1 c9e2 rfl rfl⟩

theorem c5_run_inv (a b : AgentOps) (rs : Nat → CycleRand)
    (env : Environment) (w : World) (pa pb : CognitiveProfile) (g0 : Int)
    (henv : env.cache = []) (hg0 : g0 = 10) :
    ∀ n : Nat, n ≤ 9 →
      ((run_cycles a b rs n (kernel_init env w pa pb 10 10 g0)).1.current_cycle
        = n) ∧
      ((run_cycles a b rs n
          (kernel_init env w pa pb 10 10 g0)).1.next_perturbation_cycle = 10) := by
  intro n
  induction n with
  | zero =>
    intro _
    constructor
    · simp [run_cycles, kernel_init, Environment.get_latest_cycle_id, henv]
    · simp [run_cycles, kernel_init, schedule_next_perturbation, hg0]
  | succ n ih =>
    intro hn
    obtain ⟨hc, hx⟩ := ih (by omega)
    have hlt : ¬ ((10 : Int) ≤ (n : Int) + 1) := by
      have : (n : Int) + 1 ≤ 9 := by exact_mod_cast hn
      omega
    constructor
    · simp [run_cycles, run_cycle, hc]
    · simp [run_cycles, run_cycle, hc, hx, hlt]

/-- C5 (amended): the scheduler never fires before its due cycle, and with
`min_gap = max_gap = 10` and a kernel constructed over an *empty* log
(current cycle 0) it fires first at cycle 10 and never earlier; after a
firing the schedule is re-armed to the firing cycle plus the drawn gap,
whether or not the chosen source produced a payload; a firing occurs exactly
when the advanced cycle number reaches `next_perturbation_cycle`.  (As
stated the claim also asserted that construction arms the scheduler from
`current_cycle`; the code arms it from cycle 0 even when resuming — see the
counterexample.) -/
theorem C5_scheduler (a b : AgentOps) (rs : Nat → CycleRand)
    (env : Environment) (w : World) (pa pb : CognitiveProfile) (g0 : Int)
    (henv : env.cache = [])
    (hg0 : 10 ≤ g0 ∧ g0 ≤ 10)
    (_hd : ∀ i, 10 ≤ (rs i).draw ∧ (rs i).draw ≤ 10) :
    (∀ n : Nat, n + 1 < 10 →
      (run_cycle a b (rs n)
        (run_cycles a b rs n (kernel_init env w pa pb 10 10 g0)).1).2.fired
        = false) ∧
    ((run_cycle a b (rs 9)
      (run_cycles a b rs 9 (kernel_init env w pa pb 10 10 g0)).1).2.fired
      = true) ∧
    ((run_cycle a b (rs 9)
      (run_cycles a b rs 9
        (kernel_init env w pa pb 10 10 g0)).1).1.next_perturbation_cycle
      = 10 + (rs 9).draw) ∧
    (∀ (r : CycleRand) (s : SimState),
      (run_cycle a b r s).2.fired
        = decide (s.next_perturbation_cycle ≤ s.current_cycle + 1)) ∧
    (∀ (r : CycleRand) (s : SimState), (run_cycle a b r s).2.fired = true →
      (run_cycle a b r s).1.next_perturbation_cycle
        = (s.current_cycle + 1) + r.draw) := by
  have hg0' : g0 = 10 := by omega
  refine ⟨?_, ?_, ?_, ?_, ?_⟩
  · intro n hn
    obtain ⟨hc, hx⟩ := c5_run_inv a b rs env w pa pb g0 henv hg0' n (by omega)
    have hlt : ¬ ((10 : Int) ≤ (n : Int) + 1) := by
      have : (n : Int) + 1 ≤ 9 := by exact_mod_cast Nat.lt_succ_iff.mp hn
      omega
    simp [run_cycle, hc, hx, hlt]
  · obtain ⟨hc, hx⟩ :=
      c5_run_inv a b rs env w pa pb g0 henv hg0' 9 (by omega)
    simp [run_cycle, hc, hx]
  · obtain ⟨hc, hx⟩ :=
      c5_run_inv a b rs env w pa pb g0 henv hg0' 9 (by omega)
    simp [run_cycle, schedule_next_perturbation, hc, hx]
  · intro r s; rfl
  · intro r s hf
    have hfired : decide (s.next_perturbation_cycle ≤ s.current_cycle + 1)
        = true := hf
    simp only [run_cycle, schedule_next_perturbation]
    simp [hfired]

/-- The artifact sitting in the resumed log of the C5 counterexample. -/
def c5art50 : Artifact :=
  { agent_name := "A", cycle_id := 50, timestamp := 0,
    artifact_type := .classification,
    artifact := ⟨"old", [], ⟨"s", "i", "u"⟩⟩,
    profile_update := none, profile_snapshot := none,
    silence_flag := false, id := "a_50_0" }

/-- A trivial concrete agent for the C5 counterexample. -/
def c5agent : AgentOps := ⟨fun _ _ _ => ([], []), fun _ => c5art50⟩

/-- A kernel constructed (with `min_gap = max_gap = 10`) over a log whose
latest cycle is 50 — resume semantics. -/
def c5resumed : SimState :=
  kernel_init ((Environment.load []).append c5art50) World.empty
    ⟨"A", {}, []⟩ ⟨"B", {}, []⟩ 10 10 10

/-- C5 counterexample: on construction the scheduler is armed from cycle 0,
not from `current_cycle`: resumed at cycle 50 with gap draw 10 (forced by
`min_gap = max_gap = 10`), `next_perturbation_cycle` is 10, not 60, and the
very first cycle advance (to cycle 51) already fires — the claim's
"next_due_cycle is set on construction to current_cycle plus a uniform
random integer in [min_gap, max_gap]" fails on the code. -/
theorem C5_counterexample :
    (c5resumed.current_cycle = 50) ∧
    (c5resumed.next_perturbation_cycle = 10) ∧
    ¬ (c5resumed.next_perturbation_cycle = c5resumed.current_cycle + 10) ∧
    ((run_cycle c5agent c5agent ⟨10, 0, fun l _ => l, fun l _ => l⟩
      c5resumed).2.cycle_id = 51) ∧
    ((run_cycle c5agent c5agent ⟨10, 0, fun l _ => l, fun l _ => l⟩
      c5resumed).2.fired = true) := by
  refine ⟨?_, ?_, ?_, ?_, ?_⟩ <;> decide

/-- Witness for C5: the empty-log kernel with `min_gap = max_gap = 10` and
all draws equal to 10 does fire at cycle 10. -/
theorem C5_scheduler_witness :
    (run_cycle c5agent c5agent
      ((fun _ : Nat => ({ draw := 10, choice := 0 } : CycleRand)) 9)
      (run_cycles c5agent c5agent
        (fun _ : Nat => ({ draw := 10, choice := 0 } : CycleRand)) 9
        (kernel_init (Environment.load []) World.empty
          ⟨"A", {}, []⟩ ⟨"B", {}, []⟩ 10 10 10)).1).2.fired = true :=
  (C5_scheduler c5agent c5agent
    (fun _ => { draw := 10, choice := 0 })
    (Environment.load []) World.empty ⟨"A", {}, []⟩ ⟨"B", {}, []⟩ 10
    rfl ⟨by decide, by decide⟩ (fun _ => ⟨le_refl 10, le_refl 10⟩)).2.1

end CoPresence
